import Mathlib

/-!
Shallow embedding of the PhishTank MCP server (`src/index.ts`) and proofs
about the claims of its specification.

Modelling conventions:
- JavaScript numbers that the server only ever uses as integers
  (millisecond timestamps, limits, counters) are embedded as `Int`/`Nat`.
- Wall-clock time is passed in explicitly: each operation takes the
  `Date.now()` value observed at its start, and the throttle additionally
  takes a nonnegative `slack` accounting for the time that elapses while
  sleeping beyond the requested duration (a `setTimeout(w)` wakes after at
  least `w` ms on a monotone clock).
- Optional tool arguments are `Option` values; JavaScript falsiness of
  `0`/`undefined` in `x || default` is modelled by `jsOr`.
- Upstream ISO-8601 timestamp strings on database entries are embedded as
  their epoch-millisecond value (the code only ever reads them through
  `new Date(s).getTime()` comparisons).
- The process runs with a UTC clock: `new Date("YYYY-MM-DD")` is UTC
  midnight of that day and `setHours` sets the UTC time components.
-/

namespace PhishTank

/-- Characters treated as whitespace by `String.prototype.trim` (ASCII part). -/
def isJsWhitespace (c : Char) : Bool :=
  c = ' ' || c = '\t' || c = '\n' || c = '\r' || c = '\x0b' || c = '\x0c'

/-- Embeds `s.trim()`: drop leading and trailing whitespace. -/
def jsTrim (s : String) : String :=
  ⟨((s.data.dropWhile isJsWhitespace).reverse.dropWhile isJsWhitespace).reverse⟩

/-- Embeds `s.toLowerCase()` (per-character lowering; the server only
compares brand names and URLs, for which per-character lowering agrees
with the JavaScript behavior). -/
def jsLower (s : String) : String :=
  ⟨s.data.map Char.toLower⟩

/-- Prefix test: `subAt needle hay` is true when `needle` occurs at the
start of `hay`. Building block for `jsIncludes`. -/
def subAt : List Char → List Char → Bool
  | [], _ => true
  | _ :: _, [] => false
  | a :: as, b :: bs => a = b && subAt as bs

/-- Embeds `hay.includes(needle)`: substring occurrence test. -/
def jsIncludes (hay needle : List Char) : Bool :=
  match hay with
  | [] => needle.isEmpty
  | _ :: t => subAt needle hay || jsIncludes t needle

/-- Embeds the JavaScript idiom `x || default` applied to an optional
numeric argument: `undefined` and `0` are falsy and select the default. -/
def jsOr (o : Option Int) (d : Int) : Int :=
  match o with
  | none => d
  | some v => if v = 0 then d else v

/-- Truthiness of an optional string header value: present and nonempty. -/
def jsTruthy (o : Option String) : Bool :=
  match o with
  | none => false
  | some s => s ≠ ""

/-- Embeds `parseInt(s)` (radix 10): skip leading whitespace, optional
sign, then a maximal run of digits; `none` stands for `NaN`. -/
def parseIntJs (s : String) : Option Int :=
  let cs := s.data.dropWhile isJsWhitespace
  let signed : Bool × List Char :=
    match cs with
    | '-' :: t => (true, t)
    | '+' :: t => (false, t)
    | _ => (false, cs)
  let digits := signed.2.takeWhile Char.isDigit
  if digits = [] then none
  else
    some ((if signed.1 then -1 else 1) *
      digits.foldl (fun acc c => acc * 10 + ((c.toNat : Int) - 48)) 0)

/-- Configuration built in the constructor (`index.ts` lines 64-71). -/
structure PhishTankConfig where
  apiKey : Option String
  rateLimitWindow : Int := 60000
  rateLimitMax : Int
  cacheTimeout : Int := 300000
  maxDatabaseAge : Int := 3600000
deriving DecidableEq

/-- Embeds the constructor's config initialization: the request budget is
100 per minute with an API key and 10 without (`index.ts` line 68). -/
def mkConfig (apiKey : Option String) : PhishTankConfig :=
  { apiKey := apiKey, rateLimitMax := if apiKey.isSome then 100 else 10 }

/-- Minimum spacing between permitted requests (`index.ts` line 700):
`60000 / this.config.rateLimitMax`. -/
def minInterval (cfg : PhishTankConfig) : Int :=
  60000 / cfg.rateLimitMax

/-- Embeds `enforceRateLimit` (`index.ts` lines 697-708). `last` is the
stored `lastRequestTime`, `now` the `Date.now()` at entry, and `slack ≥ 0`
the extra time the sleep and the final `Date.now()` read take beyond the
requested wait. The returned value is the new `lastRequestTime`. -/
def enforceRateLimit (cfg : PhishTankConfig) (last now slack : Int) : Int :=
  let timeSinceLastRequest := now - last
  if timeSinceLastRequest < minInterval cfg then
    now + (minInterval cfg - timeSinceLastRequest) + slack
  else
    now + slack

/-- Runs a sequence of throttled calls: each list element is the pair of
the `Date.now()` observed at that call and its sleep slack; the result is
the list of recorded `lastRequestTime` values, in order. -/
def throttleRun (cfg : PhishTankConfig) : Int → List (Int × Int) → List Int
  | _, [] => []
  | last, c :: rest =>
    let t := enforceRateLimit cfg last c.1 c.2
    t :: throttleRun cfg t rest

theorem enforceRateLimit_gap (cfg : PhishTankConfig) (last now slack : Int)
    (hs : 0 ≤ slack) :
    last + minInterval cfg ≤ enforceRateLimit cfg last now slack := by
  unfold enforceRateLimit
  dsimp only
  split <;> omega

theorem throttleRun_cons (cfg : PhishTankConfig) (last : Int)
    (c : Int × Int) (rest : List (Int × Int)) :
    throttleRun cfg last (c :: rest)
      = enforceRateLimit cfg last c.1 c.2
        :: throttleRun cfg (enforceRateLimit cfg last c.1 c.2) rest := rfl

theorem throttleRun_head_ge (cfg : PhishTankConfig) (last : Int)
    (calls : List (Int × Int)) (h : ∀ c ∈ calls, 0 ≤ c.2) :
    ∀ t ∈ (throttleRun cfg last calls).head?, last + minInterval cfg ≤ t := by
  cases calls with
  | nil => intro t ht; simp [throttleRun] at ht
  | cons c rest =>
    intro t ht
    rw [throttleRun_cons] at ht
    simp only [List.head?_cons, Option.mem_def, Option.some.injEq] at ht
    subst ht
    exact enforceRateLimit_gap cfg last c.1 c.2 (h c (by simp))

/-- Database entry (`types/phishtank-types.ts`, `PhishTankEntry`). The
upstream `submission_time` ISO string is embedded as its epoch-ms value;
the code only reads it through `new Date(..).getTime()` comparisons. The
`details` list is never read by any operation and is omitted. -/
structure PhishTankEntry where
  phish_id : Int
  url : String
  phish_detail_url : String
  submission_time : Int
  verified : String
  verification_time : String
  online : String
  target : Option String
deriving DecidableEq

/-- Database metadata (`PhishTankDatabase.meta`). -/
structure DbMeta where
  total_entries : Nat
deriving DecidableEq

/-- Database snapshot (`PhishTankDatabase`). Both fields are optional in
the TypeScript type but every value the server constructs has them. -/
structure PhishTankDatabase where
  meta : DbMeta
  entries : List PhishTankEntry
deriving DecidableEq

/-- Result block of a URL check (`PhishTankUrlCheckResponse.results`).
Optional flags stay `Option` because upstream may omit them. -/
structure UrlCheckResults where
  url : String
  in_database : Bool
  phish_id : Option Int
  verified : Option Bool
  valid : Option Bool
deriving DecidableEq

/-- URL-check response body (`PhishTankUrlCheckResponse`; the unused
`meta` block is omitted). -/
structure PhishTankUrlCheckResponse where
  results : Option UrlCheckResults
deriving DecidableEq

/-- Rate-limit telemetry (`RateLimitInfo`). In the TypeScript type
`interval` is a string and the other three are numbers; `Option Int`
stands for number-or-NaN since `parseInt` can produce `NaN`. -/
structure RateLimitInfo where
  interval : String
  limit : Option Int
  count : Option Int
  remaining : Option Int
deriving DecidableEq

/-- Relevant response headers of the check endpoint; `none` means the
header is absent. -/
structure RespHeaders where
  interval : Option String
  limit : Option String
  count : Option String
deriving DecidableEq

/-- Structured protocol-level errors thrown by handlers (`McpError`). -/
inductive McpErr where
  | invalidParams
deriving DecidableEq

/-- Mutable server state: the `NodeCache` contents (each entry paired
with its expiry timestamp in ms), the throttle's `lastRequestTime`, and a
count of outbound HTTP requests issued (for stating frame properties). -/
structure ServerState where
  urlCache : List (String × (PhishTankUrlCheckResponse × Int))
  dbCache : Option (PhishTankDatabase × Int)
  lastRequestTime : Int
  networkCalls : Nat
deriving DecidableEq

/-- Cache read for URL-check entries: a stored value is returned only
while the clock has not passed its expiry (NodeCache lazy expiry). -/
def cacheGetUrl (s : ServerState) (now : Int) (key : String) :
    Option PhishTankUrlCheckResponse :=
  match s.urlCache.lookup key with
  | none => none
  | some (v, expiry) => if now ≤ expiry then some v else none

/-- Upstream body of the bulk download, discriminated the way
`Array.isArray(response.data)` does: either a JSON array of entries or
anything else (carried as a raw string). -/
inductive UpstreamBody where
  | arr (entries : List PhishTankEntry)
  | nonArray (raw : String)
deriving DecidableEq

/-- Embeds `downloadDatabase` (`index.ts` lines 677-695): a non-array
body becomes the empty list, and the metadata records the list length. -/
def downloadDatabase (body : UpstreamBody) : PhishTankDatabase :=
  let entries :=
    match body with
    | .arr es => es
    | .nonArray _ => []
  { meta := { total_entries := entries.length }, entries := entries }

/-- Shared database access of the five query operations (`index.ts`
lines 430-437 and analogues): read the `'phishtank_database'` cache
entry; on miss, download and store with a one-hour expiry
(`maxDatabaseAge / 1000` seconds). The throttle state is not touched. -/
def getDatabase (now : Int) (body : UpstreamBody) (s : ServerState) :
    PhishTankDatabase × ServerState :=
  let cached : Option PhishTankDatabase :=
    match s.dbCache with
    | none => none
    | some (db, expiry) => if now ≤ expiry then some db else none
  match cached with
  | some db => (db, s)
  | none =>
    let db := downloadDatabase body
    (db, { s with dbCache := some (db, now + 3600000),
                  networkCalls := s.networkCalls + 1 })

/-- Descending order on submission time, as produced by the comparator
`(a, b) => new Date(b.submission_time).getTime() - new Date(a...)`. -/
def entryGE (a b : PhishTankEntry) : Prop :=
  b.submission_time ≤ a.submission_time

instance : DecidableRel entryGE := fun a b =>
  inferInstanceAs (Decidable (b.submission_time ≤ a.submission_time))

instance : IsTotal PhishTankEntry entryGE :=
  ⟨fun a b => le_total b.submission_time a.submission_time⟩

instance : IsTrans PhishTankEntry entryGE :=
  ⟨fun _ _ _ h₁ h₂ => le_trans h₂ h₁⟩

/-- Embeds `.sort((a, b) => new Date(b.submission_time).getTime() - new
Date(a.submission_time).getTime())`: a stable descending sort. -/
def sortByTimeDesc (l : List PhishTankEntry) : List PhishTankEntry :=
  List.insertionSort entryGE l

/-- Embeds `.slice(0, n)` for a JavaScript number `n`: a nonnegative `n`
keeps the first `n` elements; a negative `n` drops the last `|n|`. -/
def sliceTo (l : List α) (n : Int) : List α :=
  if 0 ≤ n then l.take n.toNat else l.take (l.length - n.natAbs)

/-- Effective limit of `get_recent_phish`: `Math.min(Number(args?.limit
|| 100), 1000)` (`index.ts` line 427). -/
def recentLimit (o : Option Int) : Int := min (jsOr o 100) 1000

/-- Effective limit of `search_phish_by_target`: `Math.min(Number(
args?.limit || 50), 500)` (`index.ts` line 467). -/
def targetLimit (o : Option Int) : Int := min (jsOr o 50) 500

/-- Effective limit of `search_phish_by_date`: `Math.min(Number(
args?.limit || 100), 500)` (`index.ts` line 623). -/
def dateLimit (o : Option Int) : Int := min (jsOr o 100) 500

/-- Effective days window of `get_phish_stats`: `Math.min(Math.max(
Number(args?.days || 7), 1), 30)` (`index.ts` line 556). -/
def statsDays (o : Option Int) : Int := min (max (jsOr o 7) 1) 30

/-- Effective top-targets limit of `get_phish_stats`: `Math.min(Number(
args?.top_targets_limit || 10), 50)` (`index.ts` line 557). -/
def statsTopLimit (o : Option Int) : Int := min (jsOr o 10) 50

/-- Effective inter-item delay of `check_multiple_urls`:
`Math.max(args?.delay || 1000, 500)` (`index.ts` line 370). -/
def checkMultipleDelay (o : Option Int) : Int := max (jsOr o 1000) 500

/-- Scheme characters allowed after the leading letter of a URL scheme. -/
def isSchemeChar (c : Char) : Bool :=
  c.isAlphanum || c = '+' || c = '-' || c = '.'

/-- Abstraction of `isValidUrl` (`index.ts` lines 710-717), which asks
the WHATWG `new URL(url)` parser to accept the string. The model keeps
the part every claim depends on — the string must start with a scheme
(a letter followed by scheme characters) and a colon — and accepts any
remainder; no claim hinges on deeper URL syntax. -/
def isValidUrl (s : String) : Bool :=
  s.data.contains ':' &&
    (match s.data.takeWhile (fun c => c ≠ ':') with
     | [] => false
     | c :: rest => c.isAlpha && rest.all isSchemeChar)

/-- Cache key built by `checkUrl` (`index.ts` line 315) from the already
trimmed url: `` `url_check:${url}` `` where `url = String(args?.url ||
'').trim()`. -/
def checkUrlCacheKey (urlArg : String) : String :=
  "url_check:" ++ jsTrim urlArg

/-- Prints an optional number the way a template literal prints a
possibly-undefined value. -/
def jsShow (o : Option Int) : String :=
  match o with
  | none => "undefined"
  | some i => toString i

/-- Embeds `getUrlCheckSummary` (`index.ts` lines 735-753). The
JavaScript truthiness of the optional `verified`/`valid` flags holds
exactly for `some true`. -/
def getUrlCheckSummary (r : PhishTankUrlCheckResponse) : String :=
  match r.results with
  | none => "Invalid response from PhishTank"
  | some res =>
    if !res.in_database then
      "URL not found in PhishTank database (likely safe)"
    else if res.verified == some true && res.valid == some true then
      "⚠️ PHISHING DETECTED - Verified phishing URL (ID: " ++
        jsShow res.phish_id ++ ")"
    else if res.in_database then
      "URL found in database but not yet verified (ID: " ++
        jsShow res.phish_id ++ ")"
    else
      "URL status unclear"

/-- Embeds `extractRateLimitInfo` (`index.ts` lines 719-733): telemetry
exists only when all three headers are truthy; `limit` and `count` go
through `parseInt` while `interval` is kept as the raw header string. -/
def extractRateLimitInfo (h : RespHeaders) : Option RateLimitInfo :=
  if jsTruthy h.interval && jsTruthy h.limit && jsTruthy h.count then
    let l := parseIntJs (h.limit.getD "")
    let c := parseIntJs (h.count.getD "")
    some { interval := h.interval.getD ""
           limit := l
           count := c
           remaining :=
             match l, c with
             | some a, some b => some (a - b)
             | _, _ => none }
  else
    none

/-- Response payload of `check_url`. An `Option` field being `none`
models the corresponding key being absent from the serialized JSON
object (`JSON.stringify` drops `undefined` members): the hit branch
(`index.ts` lines 317-328) emits `cached` and no `rate_limit_info`, the
miss branch (lines 356-365) emits `rate_limit_info` (when defined) and
no `cached` key. -/
structure CheckUrlPayload where
  cached : Option Bool
  result : PhishTankUrlCheckResponse
  rate_limit_info : Option RateLimitInfo
  summary : String
deriving DecidableEq

/-- Embeds `checkUrl` (`index.ts` lines 302-366). `now` is the
`Date.now()` at entry and `slack` the throttle sleep slack; `net` maps
the posted url to the upstream response body and headers (the `format`
form field does not influence anything the claims mention and is
omitted). The cached value expires `cacheTimeout` ms after the
post-throttle timestamp. -/
def checkUrl (cfg : PhishTankConfig) (urlArg : String) (now slack : Int)
    (net : String → PhishTankUrlCheckResponse × RespHeaders)
    (s : ServerState) : Except McpErr CheckUrlPayload × ServerState :=
  let url := jsTrim urlArg
  if url = "" then (.error .invalidParams, s)
  else if !isValidUrl url then (.error .invalidParams, s)
  else
    let key := "url_check:" ++ url
    match cacheGetUrl s now key with
    | some c =>
      (.ok { cached := some true
             result := c
             rate_limit_info := none
             summary := getUrlCheckSummary c }, s)
    | none =>
      let newLast := enforceRateLimit cfg s.lastRequestTime now slack
      let response := net url
      let result := response.1
      (.ok { cached := none
             result := result
             rate_limit_info := extractRateLimitInfo response.2
             summary := getUrlCheckSummary result },
       { s with lastRequestTime := newLast
                networkCalls := s.networkCalls + 1
                urlCache := (key, (result, newLast + cfg.cacheTimeout))
                  :: s.urlCache })

/-- Payload of `get_recent_phish` (`index.ts` lines 451-462). -/
structure RecentPayload where
  total_entries : Nat
  filtered_entries : Nat
  include_offline : Bool
  entries : List PhishTankEntry
deriving DecidableEq

/-- Embeds `getRecentPhish` (`index.ts` lines 426-463). -/
def getRecentPhish (limitArg : Option Int) (includeOfflineArg : Option Bool)
    (now : Int) (body : UpstreamBody) (s : ServerState) :
    RecentPayload × ServerState :=
  let limit := recentLimit limitArg
  let includeOffline := includeOfflineArg == some true
  let ds := getDatabase now body s
  let entries0 := ds.1.entries
  let entries1 :=
    if includeOffline then entries0
    else entries0.filter (fun e => e.online = "yes")
  let final := sliceTo (sortByTimeDesc entries1) limit
  ({ total_entries := ds.1.meta.total_entries
     filtered_entries := final.length
     include_offline := includeOffline
     entries := final }, ds.2)

/-- Payload of `search_phish_by_target` (`index.ts` lines 497-508). -/
structure TargetPayload where
  search_target : String
  verified_only : Bool
  matches_found : Nat
  entries : List PhishTankEntry
deriving DecidableEq

/-- Embeds `searchPhishByTarget` (`index.ts` lines 465-509): the query is
trimmed and lowercased, an entry matches when its (optional) target,
lowercased, contains the query, and unless `verified_only` was passed as
`false` the entry must additionally have `verified = "yes"`. -/
def searchPhishByTarget (targetArg : String) (limitArg : Option Int)
    (verifiedOnlyArg : Option Bool) (now : Int) (body : UpstreamBody)
    (s : ServerState) : Except McpErr TargetPayload × ServerState :=
  let target := jsLower (jsTrim targetArg)
  let limit := targetLimit limitArg
  let verifiedOnly := !(verifiedOnlyArg == some false)
  if target = "" then (.error .invalidParams, s)
  else
    let ds := getDatabase now body s
    let filtered := ds.1.entries.filter (fun e =>
      (match e.target with
       | some t => jsIncludes (jsLower t).data target.data
       | none => false) &&
      (!verifiedOnly || e.verified == "yes"))
    let final := sliceTo (sortByTimeDesc filtered) limit
    (.ok { search_target := target
           verified_only := verifiedOnly
           matches_found := final.length
           entries := final }, ds.2)

/-- Payload of `get_phish_details` (`index.ts` lines 529-552). -/
structure DetailsPayload where
  phish_id : Int
  found : Bool
  details : Option PhishTankEntry
deriving DecidableEq

/-- Embeds `getPhishDetails` (`index.ts` lines 511-553): a missing id
gives `NaN` and a zero id is falsy, so both fail the `!phishId ||
phishId <= 0` guard together with the negative ids. -/
def getPhishDetails (idArg : Option Int) (now : Int) (body : UpstreamBody)
    (s : ServerState) : Except McpErr DetailsPayload × ServerState :=
  match idArg with
  | none => (.error .invalidParams, s)
  | some pid =>
    if pid ≤ 0 then (.error .invalidParams, s)
    else
      let ds := getDatabase now body s
      match ds.1.entries.find? (fun e => e.phish_id == pid) with
      | none => (.ok { phish_id := pid, found := false, details := none }, ds.2)
      | some e => (.ok { phish_id := pid, found := true, details := some e }, ds.2)

/-- Target tally used by `getPhishStats`: a JavaScript `Map` increments
in place and keeps first-insertion order. -/
def bumpCount : List (String × Nat) → String → List (String × Nat)
  | [], t => [(t, 1)]
  | (k, v) :: rest, t =>
    if k = t then (k, v + 1) :: rest else (k, v) :: bumpCount rest t

/-- Descending order on tally counts, as produced by the comparator
`(a, b) => b[1] - a[1]`. -/
def countGE (a b : String × Nat) : Prop := b.2 ≤ a.2

instance : DecidableRel countGE := fun a b =>
  inferInstanceAs (Decidable (b.2 ≤ a.2))

instance : IsTotal (String × Nat) countGE := ⟨fun a b => le_total b.2 a.2⟩

instance : IsTrans (String × Nat) countGE := ⟨fun _ _ _ h₁ h₂ => le_trans h₂ h₁⟩

/-- Payload of `get_phish_stats` (`index.ts` lines 596-617; the derived
`recent_submissions` duplicate and the formatted date strings are
omitted). -/
structure StatsPayload where
  total_phish : Nat
  total_verified : Nat
  total_online : Nat
  top_targets : List (String × Nat)
deriving DecidableEq

/-- Embeds `getPhishStats` (`index.ts` lines 555-618). The cutoff
`cutoffDate.setDate(cutoffDate.getDate() - days)` is `now` minus `days`
whole days on the UTC clock assumed throughout. -/
def getPhishStats (daysArg topArg : Option Int) (now : Int)
    (body : UpstreamBody) (s : ServerState) : StatsPayload × ServerState :=
  let days := statsDays daysArg
  let topTargetsLimit := statsTopLimit topArg
  let ds := getDatabase now body s
  let cutoff := now - days * 86400000
  let recentEntries := ds.1.entries.filter (fun e => cutoff ≤ e.submission_time)
  let targetCounts := recentEntries.foldl (fun acc e =>
    match e.target with
    | some t => bumpCount acc t
    | none => acc) []
  let topTargets := sliceTo (List.insertionSort countGE targetCounts)
    topTargetsLimit
  ({ total_phish := recentEntries.length
     total_verified := (recentEntries.filter (fun e => e.verified = "yes")).length
     total_online := (recentEntries.filter (fun e => e.online = "yes")).length
     top_targets := topTargets }, ds.2)

/-- Embeds the strict regex `/^\d{4}-\d{2}-\d{2}$/` used by
`searchPhishByDate` (`index.ts` line 630). -/
def isYmdFormat (s : String) : Bool :=
  match s.data with
  | [y1, y2, y3, y4, h1, m1, m2, h2, d1, d2] =>
    y1.isDigit && y2.isDigit && y3.isDigit && y4.isDigit && h1 = '-' &&
      m1.isDigit && m2.isDigit && h2 = '-' && d1.isDigit && d2.isDigit
  | _ => false

/-- Numeric value of a digit character. -/
def digitVal (c : Char) : Int := (c.toNat : Int) - 48

/-- Leap-year test of the proleptic Gregorian calendar. -/
def isLeapYear (y : Int) : Bool :=
  (y % 4 = 0 && y % 100 ≠ 0) || y % 400 = 0

/-- Days in a month of the proleptic Gregorian calendar. -/
def daysInMonth (y m : Int) : Int :=
  if m = 2 then (if isLeapYear y then 29 else 28)
  else if m = 4 || m = 6 || m = 9 || m = 11 then 30
  else 31

/-- Days from 1970-01-01 to the given civil date (standard civil-date
algorithm; all intermediate divisions act on nonnegative values except
the era, which uses floor division). -/
def daysFromCivil (y m d : Int) : Int :=
  let yAdj := if m ≤ 2 then y - 1 else y
  let era := Int.fdiv yAdj 400
  let yoe := yAdj - era * 400
  let mp := Int.fmod (m + 9) 12
  let doy := (153 * mp + 2) / 5 + d - 1
  let doe := yoe * 365 + yoe / 4 - yoe / 100 + doy
  era * 146097 + doe - 719468

/-- Embeds `new Date("YYYY-MM-DD").getTime()` under the UTC clock: UTC
midnight of that civil day in epoch ms, or `none` (an Invalid Date,
`NaN`) when the regex-shaped string is not a real calendar date. -/
def parseYmdMs (s : String) : Option Int :=
  match s.data with
  | [y1, y2, y3, y4, _, m1, m2, _, d1, d2] =>
    let y := digitVal y1 * 1000 + digitVal y2 * 100 + digitVal y3 * 10 + digitVal y4
    let m := digitVal m1 * 10 + digitVal m2
    let d := digitVal d1 * 10 + digitVal d2
    if 1 ≤ m && m ≤ 12 && 1 ≤ d && d ≤ daysInMonth y m then
      some (daysFromCivil y m d * 86400000)
    else
      none
  | _ => none

/-- Payload of `search_phish_by_date` (`index.ts` lines 661-674). -/
structure DatePayload where
  startDate : String
  endDate : String
  matches_found : Nat
  entries : List PhishTankEntry
deriving DecidableEq

/-- Embeds `searchPhishByDate` (`index.ts` lines 620-675). After the
regex check the two dates are parsed; `end.setHours(23, 59, 59, 999)`
turns the end day's midnight into `+ 86399999` ms. When either parse
yields an Invalid Date every `NaN` comparison is false, so the start
Date.gt-end guard does not fire and the range filter keeps nothing. -/
def searchPhishByDate (startArg endArg : String) (limitArg : Option Int)
    (now : Int) (body : UpstreamBody) (s : ServerState) :
    Except McpErr DatePayload × ServerState :=
  if startArg = "" ∨ endArg = "" then (.error .invalidParams, s)
  else if !(isYmdFormat startArg && isYmdFormat endArg) then
    (.error .invalidParams, s)
  else
    match parseYmdMs startArg, parseYmdMs endArg with
    | some start, some endBase =>
      let endMs := endBase + 86399999
      if endMs < start then (.error .invalidParams, s)
      else
        let limit := dateLimit limitArg
        let ds := getDatabase now body s
        let final := sliceTo (sortByTimeDesc (ds.1.entries.filter (fun e =>
          start ≤ e.submission_time && e.submission_time ≤ endMs))) limit
        (.ok { startDate := startArg
               endDate := endArg
               matches_found := final.length
               entries := final }, ds.2)
    | _, _ =>
      let ds := getDatabase now body s
      (.ok { startDate := startArg
             endDate := endArg
             matches_found := 0
             entries := [] }, ds.2)

/-- Sample database entry used by concrete witnesses. -/
def sampleEntry : PhishTankEntry :=
  { phish_id := 1
    url := "http://bad.example/login"
    phish_detail_url := "http://phishtank.org/phish_detail.php?phish_id=1"
    submission_time := 1704067200000
    verified := "yes"
    verification_time := "2024-01-01T01:00:00+00:00"
    online := "yes"
    target := some "PayPal" }

/-- Sample upstream check endpoint used by concrete witnesses: it reports
the queried URL as not in the database and sends all three rate-limit
headers (with the documented `"300 Seconds"` interval format). -/
def sampleNet : String → PhishTankUrlCheckResponse × RespHeaders := fun u =>
  ({ results := some { url := u, in_database := false, phish_id := none,
                       verified := none, valid := none } },
   { interval := some "300 Seconds", limit := some "10", count := some "3" })

/-- State of a freshly constructed server: empty cache, `lastRequestTime
= 0`, no outbound calls yet. -/
def initialState : ServerState :=
  { urlCache := [], dbCache := none, lastRequestTime := 0, networkCalls := 0 }

theorem string_data_inj {a b : String} (h : a.data = b.data) : a = b := by
  cases a; cases b; exact congrArg String.mk h

theorem string_append_left_cancel {p a b : String} :
    p ++ a = p ++ b ↔ a = b := by
  constructor
  · intro h
    apply string_data_inj
    have hd := congrArg String.data h
    rw [String.data_append, String.data_append] at hd
    exact List.append_cancel_left hd
  · intro h; rw [h]

theorem subAt_iff (needle hay : List Char) :
    subAt needle hay = true ↔ ∃ post, hay = needle ++ post := by
  induction needle generalizing hay with
  | nil => simp [subAt]
  | cons a as ih =>
    cases hay with
    | nil => simp [subAt]
    | cons b bs =>
      simp only [subAt, Bool.and_eq_true, decide_eq_true_eq, ih,
        List.cons_append, List.cons.injEq]
      constructor
      · rintro ⟨rfl, post, rfl⟩; exact ⟨post, rfl, rfl⟩
      · rintro ⟨post, rfl, rfl⟩; exact ⟨rfl, post, rfl⟩

theorem jsIncludes_iff (hay needle : List Char) :
    jsIncludes hay needle = true ↔ ∃ pre post, hay = pre ++ needle ++ post := by
  induction hay with
  | nil =>
    simp only [jsIncludes, List.isEmpty_iff]
    constructor
    · rintro rfl; exact ⟨[], [], rfl⟩
    · rintro ⟨pre, post, h⟩
      rcases List.append_eq_nil.mp (List.append_eq_nil.mp h.symm).1 with ⟨-, h2⟩
      exact h2
  | cons b bs ih =>
    simp only [jsIncludes, Bool.or_eq_true, subAt_iff, ih]
    constructor
    · rintro (⟨post, h⟩ | ⟨pre, post, rfl⟩)
      · exact ⟨[], post, by simpa using h⟩
      · exact ⟨b :: pre, post, rfl⟩
    · rintro ⟨pre, post, h⟩
      cases pre with
      | nil => exact Or.inl ⟨post, by simpa using h⟩
      | cons c cs =>
        rw [List.cons_append, List.cons_append, List.cons.injEq] at h
        exact Or.inr ⟨cs, post, h.2⟩

theorem sliceTo_sublist (l : List α) (n : Int) : (sliceTo l n).Sublist l := by
  unfold sliceTo; split <;> exact List.take_sublist _ _

theorem mem_of_mem_sliceTo {l : List α} {n : Int} {a : α}
    (h : a ∈ sliceTo l n) : a ∈ l :=
  (sliceTo_sublist l n).subset h

theorem sliceTo_of_length_le {l : List α} {n : Int}
    (h : (l.length : Int) ≤ n) : sliceTo l n = l := by
  unfold sliceTo
  rw [if_pos (le_trans (Int.ofNat_nonneg l.length) h)]
  exact List.take_of_length_le (by omega)

theorem mem_sortByTimeDesc {a : PhishTankEntry} {l : List PhishTankEntry} :
    a ∈ sortByTimeDesc l ↔ a ∈ l :=
  (List.perm_insertionSort entryGE l).mem_iff

theorem length_sortByTimeDesc (l : List PhishTankEntry) :
    (sortByTimeDesc l).length = l.length :=
  (List.perm_insertionSort entryGE l).length_eq

theorem sorted_sortByTimeDesc (l : List PhishTankEntry) :
    List.Sorted entryGE (sortByTimeDesc l) :=
  List.sorted_insertionSort entryGE l

theorem sorted_sliceTo_sortByTimeDesc (l : List PhishTankEntry) (n : Int) :
    List.Sorted entryGE (sliceTo (sortByTimeDesc l) n) :=
  (sorted_sortByTimeDesc l).sublist (sliceTo_sublist _ n)

theorem getDatabase_lastRequestTime (now : Int) (body : UpstreamBody)
    (s : ServerState) :
    (getDatabase now body s).2.lastRequestTime = s.lastRequestTime := by
  rcases s with ⟨uc, dbc, lrt, nc⟩
  rcases dbc with - | ⟨db, exp⟩
  · rfl
  · unfold getDatabase
    dsimp only
    split <;> rfl

theorem getDatabase_urlCache (now : Int) (body : UpstreamBody)
    (s : ServerState) :
    (getDatabase now body s).2.urlCache = s.urlCache := by
  rcases s with ⟨uc, dbc, lrt, nc⟩
  rcases dbc with - | ⟨db, exp⟩
  · rfl
  · unfold getDatabase
    dsimp only
    split <;> rfl

theorem throttleRun_chain (cfg : PhishTankConfig) (last : Int)
    (calls : List (Int × Int)) (h : ∀ c ∈ calls, 0 ≤ c.2) :
    List.Chain' (fun a b => a + minInterval cfg ≤ b)
      (throttleRun cfg last calls) := by
  induction calls generalizing last with
  | nil => simp [throttleRun]
  | cons c rest ih =>
    rw [throttleRun_cons]
    refine List.chain'_cons'.mpr ⟨?_, ih _ fun d hd => h d (List.mem_cons_of_mem _ hd)⟩
    intro t ht
    exact throttleRun_head_ge cfg _ rest
      (fun d hd => h d (List.mem_cons_of_mem _ hd)) t ht

/-- C1: along every sequence of throttled calls whose sleeps last at
least the requested duration, consecutive recorded `lastRequestTime`
values are spaced by at least `60000 / requests_per_minute` ms, where the
per-minute budget is 10 without an API key and 100 with one. -/
theorem claim1_throttle_spacing (apiKey : Option String) (last : Int)
    (calls : List (Int × Int)) (h : ∀ c ∈ calls, 0 ≤ c.2) :
    List.Chain' (fun a b => a + minInterval (mkConfig apiKey) ≤ b)
      (throttleRun (mkConfig apiKey) last calls) ∧
    minInterval (mkConfig apiKey)
      = 60000 / (if apiKey.isSome then (100 : Int) else 10) := by
  refine ⟨throttleRun_chain _ last calls h, ?_⟩
  cases apiKey <;> rfl

/-- Witness for C1 at a concrete call sequence (no API key, so the
minimum spacing is 6000 ms). -/
theorem claim1_witness :
    List.Chain' (fun a b => a + minInterval (mkConfig none) ≤ b)
      (throttleRun (mkConfig none) 0 [(0, 0), (100, 0), (20000, 5)]) ∧
    minInterval (mkConfig none)
      = 60000 / (if (none : Option String).isSome then (100 : Int) else 10) :=
  claim1_throttle_spacing none 0 [(0, 0), (100, 0), (20000, 5)] (by decide)

/-- C3 fails on the code: `check_multiple_urls` computes
`Math.max(args?.delay || 1000, 500)` with no upper clamp, so a delay
argument of 20000 ms is used as-is instead of being clamped to 10000. -/
theorem claim3_counterexample :
    checkMultipleDelay (some 20000) = 20000 ∧
    min (max (20000 : Int) 500) 10000 = 10000 ∧
    checkMultipleDelay (some 20000) ≠ min (max (20000 : Int) 500) 10000 := by
  decide

/-- C3 amended: the effective inter-item delay is the argument clamped
below to 500 ms, with default 1000 when the argument is absent or 0; no
upper clamp is applied. -/
theorem claim3_delay_lower_clamp_only :
    checkMultipleDelay none = 1000 ∧
    checkMultipleDelay (some 0) = 1000 ∧
    (∀ v : Int, v ≠ 0 → checkMultipleDelay (some v) = max v 500) ∧
    (∀ v : Int, 500 ≤ checkMultipleDelay (some v)) := by
  refine ⟨by decide, by decide, ?_, ?_⟩
  · intro v hv
    simp [checkMultipleDelay, jsOr, hv]
  · intro v
    by_cases hv : v = 0 <;> simp [checkMultipleDelay, jsOr, hv]

/-- Witness for the amended C3 at concrete delays. -/
theorem claim3_witness :
    checkMultipleDelay (some 600) = max 600 500 ∧
    checkMultipleDelay (some 20000) = max 20000 500 :=
  ⟨claim3_delay_lower_clamp_only.2.2.1 600 (by decide),
   claim3_delay_lower_clamp_only.2.2.1 20000 (by decide)⟩

/-- C5: the database download turns an array body into exactly that
entry list and any non-array body into the empty list — it is total, so
parsing never fails — and the `total_entries` metadata always equals the
length of the entry list. -/
theorem claim5_downloadDatabase_spec (body : UpstreamBody) :
    (downloadDatabase body).meta.total_entries
      = (downloadDatabase body).entries.length ∧
    (∀ es, body = .arr es → (downloadDatabase body).entries = es) ∧
    (∀ raw, body = .nonArray raw → (downloadDatabase body).entries = []) := by
  cases body <;> simp [downloadDatabase]

/-- Witness for C5 at an array and a non-array body. -/
theorem claim5_witness :
    (downloadDatabase (.arr [sampleEntry])).entries = [sampleEntry] ∧
    (downloadDatabase (.nonArray "Invalid request")).entries = [] :=
  ⟨(claim5_downloadDatabase_spec _).2.1 [sampleEntry] rfl,
   (claim5_downloadDatabase_spec _).2.2 "Invalid request" rfl⟩

/-- C6: the bulk download never passes through the rate throttle — the
shared database access and every database-backed operation leave the
throttle state `lastRequestTime` unchanged, for every starting state,
clock value, upstream body and argument set. -/
theorem claim6_download_preserves_throttle (now : Int) (body : UpstreamBody)
    (s : ServerState) :
    (getDatabase now body s).2.lastRequestTime = s.lastRequestTime ∧
    (∀ limA ioA,
      (getRecentPhish limA ioA now body s).2.lastRequestTime
        = s.lastRequestTime) ∧
    (∀ t limA voA,
      (searchPhishByTarget t limA voA now body s).2.lastRequestTime
        = s.lastRequestTime) ∧
    (∀ idA,
      (getPhishDetails idA now body s).2.lastRequestTime
        = s.lastRequestTime) ∧
    (∀ dA tA,
      (getPhishStats dA tA now body s).2.lastRequestTime
        = s.lastRequestTime) ∧
    (∀ sd ed limA,
      (searchPhishByDate sd ed limA now body s).2.lastRequestTime
        = s.lastRequestTime) := by
  refine ⟨getDatabase_lastRequestTime now body s, ?_, ?_, ?_, ?_, ?_⟩
  · intro limA ioA
    simp [getRecentPhish, getDatabase_lastRequestTime]
  · intro t limA voA
    unfold searchPhishByTarget
    dsimp only
    split
    · rfl
    · exact getDatabase_lastRequestTime now body s
  · intro idA
    unfold getPhishDetails
    rcases idA with - | pid
    · rfl
    · dsimp only
      split
      · rfl
      · split <;> exact getDatabase_lastRequestTime now body s
  · intro dA tA
    simp [getPhishStats, getDatabase_lastRequestTime]
  · intro sd ed limA
    unfold searchPhishByDate
    dsimp only
    split
    · rfl
    · split
      · rfl
      · split
        · split
          · rfl
          · exact getDatabase_lastRequestTime now body s
        · exact getDatabase_lastRequestTime now body s

/-- C10: for every optional numeric argument an explicit 0 selects the
default exactly as omission does, and the documented lower bounds are
never applied to the `limit` arguments — a nonzero limit is only capped
above. -/
theorem claim10_zero_defaults :
    (recentLimit (some 0) = recentLimit none ∧ recentLimit none = 100) ∧
    (dateLimit (some 0) = dateLimit none ∧ dateLimit none = 100) ∧
    (statsDays (some 0) = statsDays none ∧ statsDays none = 7) ∧
    (statsTopLimit (some 0) = statsTopLimit none ∧ statsTopLimit none = 10) ∧
    (checkMultipleDelay (some 0) = checkMultipleDelay none ∧
      checkMultipleDelay none = 1000) ∧
    (∀ v : Int, v ≠ 0 → recentLimit (some v) = min v 1000) ∧
    (∀ v : Int, v ≠ 0 → dateLimit (some v) = min v 500) ∧
    (∀ v : Int, v ≠ 0 → targetLimit (some v) = min v 500) := by
  refine ⟨by decide, by decide, by decide, by decide, by decide, ?_, ?_, ?_⟩
  · intro v hv; simp [recentLimit, jsOr, hv]
  · intro v hv; simp [dateLimit, jsOr, hv]
  · intro v hv; simp [targetLimit, jsOr, hv]

/-- Witness for C10: small and negative limits pass through unclamped
below (the documented lower bound 1 is not enforced). -/
theorem claim10_witness :
    recentLimit (some (-5)) = min (-5) 1000 ∧
    dateLimit (some 3) = min 3 500 :=
  ⟨claim10_zero_defaults.2.2.2.2.2.1 (-5) (by decide),
   claim10_zero_defaults.2.2.2.2.2.2.1 3 (by decide)⟩

/-- C4 fails on the code: `checkUrl` trims the url argument before
building the cache key, so for the accepted argument `"https://a.com "`
(trailing space) the key is not `"url_check:" ++` the argument verbatim,
and the two distinct argument strings `"https://a.com "` and
`"https://a.com"` share one cache entry. -/
theorem claim4_counterexample :
    isValidUrl (jsTrim "https://a.com ") = true ∧
    jsTrim "https://a.com " ≠ "" ∧
    checkUrlCacheKey "https://a.com " ≠ "url_check:" ++ "https://a.com " ∧
    checkUrlCacheKey "https://a.com " = checkUrlCacheKey "https://a.com" := by
  decide

/-- C4 amended: the cache key is `"url_check:"` concatenated with the
trimmed url argument — case-sensitive and with no normalization beyond
the trim — so two accepted arguments use the same cache entry exactly
when their trimmed forms are equal as strings (arguments differing by
case or by a trailing slash remain distinct entries), and on a miss
`checkUrl` stores the fetched result under precisely that key. -/
theorem claim4_cache_key_trimmed_verbatim :
    (∀ u, checkUrlCacheKey u = "url_check:" ++ jsTrim u) ∧
    (∀ u v, checkUrlCacheKey u = checkUrlCacheKey v ↔ jsTrim u = jsTrim v) ∧
    (∀ cfg u now slack net s, isValidUrl (jsTrim u) = true → jsTrim u ≠ "" →
      cacheGetUrl s now ("url_check:" ++ jsTrim u) = none →
      (checkUrl cfg u now slack net s).2.urlCache.head?.map Prod.fst
        = some (checkUrlCacheKey u)) := by
  refine ⟨fun u => rfl, fun u v => string_append_left_cancel, ?_⟩
  intro cfg u now slack net s hv hne hmiss
  unfold checkUrl
  rw [if_neg hne, if_neg (by simp [hv])]
  dsimp only
  rw [hmiss]
  rfl

/-- Witness for the amended C4: a concrete run on a padded url stores
under its trimmed key. -/
theorem claim4_witness :
    (checkUrl (mkConfig none) "https://a.com " 0 0 sampleNet
        initialState).2.urlCache.head?.map Prod.fst
      = some (checkUrlCacheKey "https://a.com ") :=
  claim4_cache_key_trimmed_verbatim.2.2 (mkConfig none) "https://a.com " 0 0
    sampleNet initialState (by decide) (by decide) rfl

/-- C2 fails as stated: with the rate-limit headers present upstream,
the miss response carries a `rate_limit_info` field that the cached
response never has, so the two payloads differ in more than the `cached`
marker (here the second call is indeed a cache hit with `cached: true`,
yet overwriting `cached` on both sides still leaves unequal payloads). -/
theorem claim2_counterexample :
    ((checkUrl (mkConfig none) "https://a.com" 1 0 sampleNet
        (checkUrl (mkConfig none) "https://a.com" 0 0 sampleNet
          initialState).2).1.toOption.map CheckUrlPayload.cached
      = some (some true)) ∧
    ((checkUrl (mkConfig none) "https://a.com" 0 0 sampleNet
        initialState).1.toOption.map (fun p => { p with cached := some true })
      ≠ (checkUrl (mkConfig none) "https://a.com" 1 0 sampleNet
          (checkUrl (mkConfig none) "https://a.com" 0 0 sampleNet
            initialState).2).1.toOption.map
          (fun p => { p with cached := some true })) := by
  decide

/-- C2 amended: calling `check_url` twice in immediate succession with
the same URL string issues exactly one outbound network call — the
second call is a cache hit that leaves the state (including the throttle)
untouched and carries `cached: true` — and the two payloads agree on the
`result` and `summary` fields; the miss payload has no `cached` key and
carries the extracted rate-limit telemetry, which the hit payload never
carries, so the payloads differ only in the `cached` marker exactly when
that telemetry is absent. -/
theorem claim2_checkUrl_idempotent_cache
    (cfg : PhishTankConfig) (u : String) (now₁ slack₁ now₂ slack₂ : Int)
    (net : String → PhishTankUrlCheckResponse × RespHeaders)
    (s : ServerState)
    (hv : isValidUrl (jsTrim u) = true) (hne : jsTrim u ≠ "")
    (hmiss : cacheGetUrl s now₁ ("url_check:" ++ jsTrim u) = none)
    (hfresh : now₂ ≤ enforceRateLimit cfg s.lastRequestTime now₁ slack₁
        + cfg.cacheTimeout) :
    ∃ p₁ p₂ s₁,
      checkUrl cfg u now₁ slack₁ net s = (.ok p₁, s₁) ∧
      checkUrl cfg u now₂ slack₂ net s₁ = (.ok p₂, s₁) ∧
      s₁.networkCalls = s.networkCalls + 1 ∧
      p₂.cached = some true ∧ p₁.cached = none ∧
      p₂.result = p₁.result ∧ p₂.summary = p₁.summary ∧
      p₂.rate_limit_info = none ∧
      p₁.rate_limit_info = extractRateLimitInfo (net (jsTrim u)).2 ∧
      (extractRateLimitInfo (net (jsTrim u)).2 = none →
        { p₁ with cached := some true } = p₂) := by
  refine ⟨{ cached := none
            result := (net (jsTrim u)).1
            rate_limit_info := extractRateLimitInfo (net (jsTrim u)).2
            summary := getUrlCheckSummary (net (jsTrim u)).1 },
          { cached := some true
            result := (net (jsTrim u)).1
            rate_limit_info := none
            summary := getUrlCheckSummary (net (jsTrim u)).1 },
          { s with
              lastRequestTime := enforceRateLimit cfg s.lastRequestTime now₁ slack₁
              networkCalls := s.networkCalls + 1
              urlCache := ("url_check:" ++ jsTrim u,
                ((net (jsTrim u)).1,
                  enforceRateLimit cfg s.lastRequestTime now₁ slack₁
                    + cfg.cacheTimeout)) :: s.urlCache },
          ?_, ?_, rfl, rfl, rfl, rfl, rfl, rfl, rfl, ?_⟩
  · unfold checkUrl
    rw [if_neg hne, if_neg (by simp [hv])]
    dsimp only
    rw [hmiss]
  · unfold checkUrl
    rw [if_neg hne, if_neg (by simp [hv])]
    dsimp only
    rw [show cacheGetUrl
        { s with
            lastRequestTime := enforceRateLimit cfg s.lastRequestTime now₁ slack₁
            networkCalls := s.networkCalls + 1
            urlCache := ("url_check:" ++ jsTrim u,
              ((net (jsTrim u)).1,
                enforceRateLimit cfg s.lastRequestTime now₁ slack₁
                  + cfg.cacheTimeout)) :: s.urlCache }
        now₂ ("url_check:" ++ jsTrim u)
        = some (net (jsTrim u)).1 from by
      unfold cacheGetUrl
      simp [List.lookup, if_pos hfresh]]
  · intro hnone
    rw [hnone]

/-- Witness for the amended C2: a concrete pair of immediate calls on a
fresh server. -/
theorem claim2_witness :
    ∃ p₁ p₂ s₁,
      checkUrl (mkConfig none) "https://a.com" 0 0 sampleNet initialState
        = (.ok p₁, s₁) ∧
      checkUrl (mkConfig none) "https://a.com" 1 0 sampleNet s₁
        = (.ok p₂, s₁) ∧
      s₁.networkCalls = initialState.networkCalls + 1 ∧
      p₂.cached = some true ∧ p₁.cached = none ∧
      p₂.result = p₁.result ∧ p₂.summary = p₁.summary ∧
      p₂.rate_limit_info = none ∧
      p₁.rate_limit_info
        = extractRateLimitInfo (sampleNet (jsTrim "https://a.com")).2 ∧
      (extractRateLimitInfo (sampleNet (jsTrim "https://a.com")).2 = none →
        { p₁ with cached := some true } = p₂) :=
  claim2_checkUrl_idempotent_cache (mkConfig none) "https://a.com" 0 0 1 0
    sampleNet initialState (by decide) (by decide) rfl (by decide)

/-- C9 fails as stated: the miss branch of `checkUrl` serializes
`{ result, rate_limit_info, summary }` with no `cached` key at all (so
there is no `cached: false` marker), and the telemetry's `interval`
member is forwarded as the raw header string (here `"300 Seconds"`),
not parsed as an integer. -/
theorem claim9_counterexample :
    ((checkUrl (mkConfig none) "https://b.com" 0 0 sampleNet
        initialState).1.toOption.map CheckUrlPayload.cached
      = some none) ∧
    (some (none : Option Bool) ≠ some (some false)) ∧
    ((extractRateLimitInfo
        { interval := some "300 Seconds", limit := some "10",
          count := some "3" }).map RateLimitInfo.interval
      = some "300 Seconds") := by
  decide

/-- C9 amended: on a cache miss the response carries no `cached` marker
(the `cached` key appears only on hits), and rate-limit telemetry is
attached exactly when all three rate-limit headers are truthy (present
and nonempty); in the telemetry, `limit` and `count` are parsed as
integers, `interval` is kept as the raw header string, and `remaining`
is the parsed limit minus the parsed count. -/
theorem claim9_miss_response_telemetry
    (cfg : PhishTankConfig) (u : String) (now slack : Int)
    (net : String → PhishTankUrlCheckResponse × RespHeaders)
    (s : ServerState)
    (hv : isValidUrl (jsTrim u) = true) (hne : jsTrim u ≠ "")
    (hmiss : cacheGetUrl s now ("url_check:" ++ jsTrim u) = none) :
    (∃ p s₁, checkUrl cfg u now slack net s = (.ok p, s₁) ∧
      p.cached = none ∧
      p.rate_limit_info = extractRateLimitInfo (net (jsTrim u)).2) ∧
    (∀ h : RespHeaders,
      (extractRateLimitInfo h).isSome
        = (jsTruthy h.interval && jsTruthy h.limit && jsTruthy h.count) ∧
      (∀ info, extractRateLimitInfo h = some info →
        info.interval = h.interval.getD "" ∧
        info.limit = parseIntJs (h.limit.getD "") ∧
        info.count = parseIntJs (h.count.getD "") ∧
        ∀ a b, info.limit = some a → info.count = some b →
          info.remaining = some (a - b))) := by
  constructor
  · refine ⟨{ cached := none
              result := (net (jsTrim u)).1
              rate_limit_info := extractRateLimitInfo (net (jsTrim u)).2
              summary := getUrlCheckSummary (net (jsTrim u)).1 },
            { s with
                lastRequestTime := enforceRateLimit cfg s.lastRequestTime now slack
                networkCalls := s.networkCalls + 1
                urlCache := ("url_check:" ++ jsTrim u,
                  ((net (jsTrim u)).1,
                    enforceRateLimit cfg s.lastRequestTime now slack
                      + cfg.cacheTimeout)) :: s.urlCache },
            ?_, rfl, rfl⟩
    unfold checkUrl
    rw [if_neg hne, if_neg (by simp [hv])]
    dsimp only
    rw [hmiss]
  · intro h
    constructor
    · cases hb : (jsTruthy h.interval && jsTruthy h.limit && jsTruthy h.count) with
      | true =>
        unfold extractRateLimitInfo
        rw [if_pos hb]
        rfl
      | false =>
        unfold extractRateLimitInfo
        rw [if_neg (by simp [hb])]
        rfl
    · intro info hinfo
      unfold extractRateLimitInfo at hinfo
      by_cases hb : (jsTruthy h.interval && jsTruthy h.limit
          && jsTruthy h.count) = true
      · rw [if_pos hb] at hinfo
        dsimp only at hinfo
        have hi := Option.some.inj hinfo
        subst hi
        refine ⟨rfl, rfl, rfl, ?_⟩
        intro a b ha hb'
        dsimp only at ha hb' ⊢
        rw [ha, hb']
      · rw [if_neg hb] at hinfo
        exact absurd hinfo (by simp)

/-- Witness for the amended C9: a concrete miss on a fresh server. -/
theorem claim9_witness :
    (∃ p s₁,
      checkUrl (mkConfig none) "https://b.com" 0 0 sampleNet initialState
        = (.ok p, s₁) ∧
      p.cached = none ∧
      p.rate_limit_info
        = extractRateLimitInfo (sampleNet (jsTrim "https://b.com")).2) ∧
    (∀ h : RespHeaders,
      (extractRateLimitInfo h).isSome
        = (jsTruthy h.interval && jsTruthy h.limit && jsTruthy h.count) ∧
      (∀ info, extractRateLimitInfo h = some info →
        info.interval = h.interval.getD "" ∧
        info.limit = parseIntJs (h.limit.getD "") ∧
        info.count = parseIntJs (h.count.getD "") ∧
        ∀ a b, info.limit = some a → info.count = some b →
          info.remaining = some (a - b))) :=
  claim9_miss_response_telemetry (mkConfig none) "https://b.com" 0 0
    sampleNet initialState (by decide) (by decide) rfl

/-- C7: for valid `YYYY-MM-DD` dates, `search_phish_by_date` fails with
`InvalidArgument` when the start day is after the end of the end day, and
otherwise returns entries whose submission timestamp lies in the
inclusive range from the start day's midnight to the end day's
23:59:59.999 (`+ 86399999` ms), sorted descending and truncated to the
limit: every returned entry is in range, and every in-range entry is
returned whenever the matches fit within the limit. With equal start and
end dates the window is exactly that single whole day. -/
theorem claim7_date_range_inclusive
    (sd ed : String) (lim : Option Int) (now : Int) (body : UpstreamBody)
    (s : ServerState) (stMs enMs : Int)
    (hsf : isYmdFormat sd = true) (hef : isYmdFormat ed = true)
    (hs : parseYmdMs sd = some stMs) (he : parseYmdMs ed = some enMs) :
    (enMs + 86399999 < stMs →
      (searchPhishByDate sd ed lim now body s).1 = .error .invalidParams) ∧
    (stMs ≤ enMs + 86399999 →
      ∃ p, (searchPhishByDate sd ed lim now body s).1 = .ok p ∧
        (∀ e ∈ p.entries,
          stMs ≤ e.submission_time ∧ e.submission_time ≤ enMs + 86399999) ∧
        List.Sorted entryGE p.entries ∧
        (∀ e ∈ (getDatabase now body s).1.entries,
          stMs ≤ e.submission_time → e.submission_time ≤ enMs + 86399999 →
          (((getDatabase now body s).1.entries.filter (fun e =>
              stMs ≤ e.submission_time && e.submission_time ≤ enMs + 86399999
                : PhishTankEntry → Bool)).length : Int) ≤ dateLimit lim →
          e ∈ p.entries)) := by
  have hne1 : ¬(sd = "" ∨ ed = "") := by
    rintro (h | h) <;> subst h <;> simp [isYmdFormat] at hsf hef
  have hfmt : ¬(!(isYmdFormat sd && isYmdFormat ed)) = true := by
    simp [hsf, hef]
  constructor
  · intro hlt
    unfold searchPhishByDate
    rw [if_neg hne1, if_neg hfmt, hs, he]
    dsimp only
    rw [if_pos hlt]
  · intro hle
    unfold searchPhishByDate
    rw [if_neg hne1, if_neg hfmt, hs, he]
    dsimp only
    rw [if_neg (by omega)]
    refine ⟨_, rfl, ?_, ?_, ?_⟩
    · intro e hmem
      have h1 := mem_sortByTimeDesc.mp (mem_of_mem_sliceTo hmem)
      have h2 := (List.mem_filter.mp h1).2
      simpa [Bool.and_eq_true, decide_eq_true_eq] using h2
    · exact sorted_sliceTo_sortByTimeDesc _ _
    · intro e hmem hlo hhi hlen
      have hf : e ∈ (getDatabase now body s).1.entries.filter
          (fun e => stMs ≤ e.submission_time &&
            e.submission_time ≤ enMs + 86399999 : PhishTankEntry → Bool) :=
        List.mem_filter.mpr ⟨hmem, by simp [hlo, hhi]⟩
      have hlen' : (((sortByTimeDesc ((getDatabase now body s).1.entries.filter
          (fun e => stMs ≤ e.submission_time &&
            e.submission_time ≤ enMs + 86399999 : PhishTankEntry → Bool))).length
          : Int)) ≤ dateLimit lim := by
        rw [length_sortByTimeDesc]; exact hlen
      rw [sliceTo_of_length_le hlen']
      exact mem_sortByTimeDesc.mpr hf

/-- Witness for C7: a single-day search over a one-entry snapshot whose
entry was submitted exactly at that day's midnight. -/
theorem claim7_witness :
    ((1704067200000 : Int) + 86399999 < 1704067200000 →
      (searchPhishByDate "2024-01-01" "2024-01-01" none 0
        (.arr [sampleEntry]) initialState).1 = .error .invalidParams) ∧
    ((1704067200000 : Int) ≤ 1704067200000 + 86399999 →
      ∃ p, (searchPhishByDate "2024-01-01" "2024-01-01" none 0
          (.arr [sampleEntry]) initialState).1 = .ok p ∧
        (∀ e ∈ p.entries, 1704067200000 ≤ e.submission_time ∧
          e.submission_time ≤ 1704067200000 + 86399999) ∧
        List.Sorted entryGE p.entries ∧
        (∀ e ∈ (getDatabase 0 (.arr [sampleEntry]) initialState).1.entries,
          1704067200000 ≤ e.submission_time →
          e.submission_time ≤ 1704067200000 + 86399999 →
          (((getDatabase 0 (.arr [sampleEntry]) initialState).1.entries.filter
              (fun e => 1704067200000 ≤ e.submission_time &&
                e.submission_time ≤ 1704067200000 + 86399999
                  : PhishTankEntry → Bool)).length : Int) ≤ dateLimit none →
          e ∈ p.entries)) :=
  claim7_date_range_inclusive "2024-01-01" "2024-01-01" none 0
    (.arr [sampleEntry]) initialState 1704067200000 1704067200000
    (by decide) (by decide) (by decide) (by decide)

/-- C8: for a non-empty target query, `search_phish_by_target` returns
entries whose target field (when present) contains the trimmed,
lowercased query as a case-insensitive substring — entries without a
target never match — requiring `verified = "yes"` unless `verified_only`
was explicitly passed as `false`, sorted descending by submission time
and truncated to the limit; completeness holds whenever the matches fit
within the limit. -/
theorem claim8_target_search
    (targetArg : String) (lim : Option Int) (vo : Option Bool) (now : Int)
    (body : UpstreamBody) (s : ServerState)
    (hne : ¬jsLower (jsTrim targetArg) = "") :
    ∃ p, (searchPhishByTarget targetArg lim vo now body s).1 = .ok p ∧
      (∀ e ∈ p.entries,
        (∃ t pre post, e.target = some t ∧
          (jsLower t).data
            = pre ++ (jsLower (jsTrim targetArg)).data ++ post) ∧
        (vo ≠ some false → e.verified = "yes")) ∧
      List.Sorted entryGE p.entries ∧
      (∀ e ∈ (getDatabase now body s).1.entries,
        (∃ t pre post, e.target = some t ∧
          (jsLower t).data
            = pre ++ (jsLower (jsTrim targetArg)).data ++ post) →
        (vo = some false ∨ e.verified = "yes") →
        (((getDatabase now body s).1.entries.filter (fun e =>
            (match e.target with
             | some t => jsIncludes (jsLower t).data
                 (jsLower (jsTrim targetArg)).data
             | none => false) &&
            (!(!(vo == some false)) || e.verified == "yes"))).length : Int)
          ≤ targetLimit lim →
        e ∈ p.entries) := by
  unfold searchPhishByTarget
  rw [if_neg hne]
  dsimp only
  refine ⟨_, rfl, ?_, ?_, ?_⟩
  · intro e hmem
    have h1 := (List.mem_filter.mp
      (mem_sortByTimeDesc.mp (mem_of_mem_sliceTo hmem))).2
    rw [Bool.and_eq_true] at h1
    constructor
    · cases ht : e.target with
      | none => rw [ht] at h1; exact absurd h1.1 (by simp)
      | some t =>
        rw [ht] at h1
        obtain ⟨pre, post, hsplit⟩ := (jsIncludes_iff _ _).mp h1.1
        exact ⟨t, pre, post, rfl, hsplit⟩
    · intro hvo
      have h2 := h1.2
      have hbe : (vo == some false) = false := by
        cases hb : vo == some false
        · rfl
        · exact absurd (eq_of_beq hb) hvo
      rw [hbe] at h2
      simp only [Bool.not_false, Bool.not_true, Bool.false_or] at h2
      exact eq_of_beq h2
  · exact sorted_sliceTo_sortByTimeDesc _ _
  · intro e hmem hsub hver hlen
    have hpred : ((match e.target with
        | some t => jsIncludes (jsLower t).data (jsLower (jsTrim targetArg)).data
        | none => false) &&
        (!(!(vo == some false)) || e.verified == "yes")) = true := by
      rw [Bool.and_eq_true]
      constructor
      · obtain ⟨t, pre, post, ht, hsplit⟩ := hsub
        rw [ht]
        exact (jsIncludes_iff _ _).mpr ⟨pre, post, hsplit⟩
      · rcases hver with hvo | hv
        · rw [show (vo == some false) = true from beq_iff_eq.mpr hvo]
          rfl
        · rw [Bool.or_eq_true]
          exact Or.inr (beq_iff_eq.mpr hv)
    have hf : e ∈ (getDatabase now body s).1.entries.filter
        (fun e => (match e.target with
          | some t => jsIncludes (jsLower t).data
              (jsLower (jsTrim targetArg)).data
          | none => false) &&
          (!(!(vo == some false)) || e.verified == "yes")) :=
      List.mem_filter.mpr ⟨hmem, hpred⟩
    have hlen' : (((sortByTimeDesc ((getDatabase now body s).1.entries.filter
        (fun e => (match e.target with
          | some t => jsIncludes (jsLower t).data
              (jsLower (jsTrim targetArg)).data
          | none => false) &&
          (!(!(vo == some false)) || e.verified == "yes")))).length : Int))
        ≤ targetLimit lim := by
      rw [length_sortByTimeDesc]; exact hlen
    rw [sliceTo_of_length_le hlen']
    exact mem_sortByTimeDesc.mpr hf

/-- Witness for C8: the spec example — an entry targeting `"PayPal"`
matches the query `"paypal"`. -/
theorem claim8_witness :
    ∃ p, (searchPhishByTarget "paypal" none none 0 (.arr [sampleEntry])
        initialState).1 = .ok p ∧
      (∀ e ∈ p.entries,
        (∃ t pre post, e.target = some t ∧
          (jsLower t).data
            = pre ++ (jsLower (jsTrim "paypal")).data ++ post) ∧
        ((none : Option Bool) ≠ some false → e.verified = "yes")) ∧
      List.Sorted entryGE p.entries ∧
      (∀ e ∈ (getDatabase 0 (.arr [sampleEntry]) initialState).1.entries,
        (∃ t pre post, e.target = some t ∧
          (jsLower t).data
            = pre ++ (jsLower (jsTrim "paypal")).data ++ post) →
        ((none : Option Bool) = some false ∨ e.verified = "yes") →
        (((getDatabase 0 (.arr [sampleEntry]) initialState).1.entries.filter
            (fun e => (match e.target with
              | some t => jsIncludes (jsLower t).data
                  (jsLower (jsTrim "paypal")).data
              | none => false) &&
              (!(!((none : Option Bool) == some false))
                || e.verified == "yes"))).length : Int)
          ≤ targetLimit none →
        e ∈ p.entries) :=
  claim8_target_search "paypal" none none 0 (.arr [sampleEntry])
    initialState (by decide)

end PhishTank
